import Mathlib

/-! Diameter message: AVP lookup and header rendering.

A shallow embedding of `diam/msg.go` (package `diam`): the `Message` type with its
methods `FindAVP`, `PrettyPrint`, `String`, and the helper `findCmd`.

Conventions of the embedding.

* A Go pointer that the code dereferences without a guard is an `Option`; dereferencing
  `none` is the run-time panic `Run.panic`.  This is done for `Message.Header` and
  `Message.Dict`.  The elements of the slice `Message.AVP` are taken to be non-nil.
* A Go `error` is its message text (`String`).
* A Go result pair `(*AVP, error)` is a pair of options: `nil` is `none`.
* The dictionary (`dict.Parser`), the header type, the AVP type, the serialiser `Bytes`
  and the AVP text rendering are declared outside `msg.go`; the dictionary's three lookups,
  `Bytes` and the AVP rendering are parameters, the record types list the fields that
  `msg.go` reads.
* The two output streams written by `PrettyPrint` are a list of writes, in program order.
-/

namespace Diam

/-- Outcome of running a Go function: it returns a value, or it panics (nil dereference). -/
inductive Run (α : Type) where
  | done (a : α)
  | panic
  deriving DecidableEq, Repr

/-- The text type of Go, under a name that does not clash with the method `Message.String`. -/
abbrev GoString : Type := String

/-- The argument `code interface{}` of `FindAVP`: by its doc comment either the AVP code
(`int`, `uint32`) or the AVP name (`string`). -/
inductive Ident where
  | int (i : Int)
  | uint32 (n : Nat)
  | str (s : GoString)
  deriving DecidableEq, Repr

/-- Modelled from the spec: the header type is declared outside `msg.go`.  These are the
seven values `msg.go` reads from it; `CommandCode` and `MessageLength` stand for the results
of the accessor methods `h.CommandCode()` and `h.MessageLength()`.  All are unsigned. -/
structure Header where
  Version : Nat
  MessageLength : Nat
  CommandFlags : Nat
  CommandCode : Nat
  ApplicationId : Nat
  HopByHopId : Nat
  EndToEndId : Nat
  deriving DecidableEq, Repr

/-- Modelled from the spec: the AVP type is declared outside `msg.go`, which reads only
`Code`; flags and the raw payload are what tells two AVPs with the same code apart. -/
structure AVP where
  Code : Nat
  Flags : Nat
  Data : List Nat
  deriving DecidableEq, Repr

namespace dict

/-- The dictionary's AVP definition (`dict.AVP`): `msg.go` reads `Code` and `Name`. -/
structure AVP where
  Name : GoString
  Code : Nat
  deriving DecidableEq, Repr

/-- The dictionary's command definition: `msg.go` reads `Name` and `Short`. -/
structure Cmd where
  Name : GoString
  Short : GoString
  deriving DecidableEq, Repr

/-- The dictionary `dict.Parser`, given by the three lookups `msg.go` calls.  Each returns
`(value, error)` in Go; here the value or the error text. -/
structure Parser where
  FindAVP : Nat → Ident → Except GoString dict.AVP
  ScanAVP : Ident → Except GoString dict.AVP
  FindCmd : Nat → Nat → Except GoString dict.Cmd

end dict

/-- The Go type `Message`: `Header *Header`, `AVP []*AVP`, `Dict *dict.Parser`. -/
structure Message where
  Header : Option Header
  AVP : List AVP
  Dict : Option dict.Parser

/-- The verb `%d` of Go's `fmt` applied to a `uint32`/`uint8`: decimal digits. -/
def fmtDec (n : Nat) : GoString := toString n

/-- The verb `%#v` of Go's `fmt` applied to an unsigned integer: `0x` and lower-case
hexadecimal digits (`0x0` for zero). -/
def fmtSharpV (n : Nat) : GoString := "0x" ++ String.mk (Nat.toDigits 16 n)

/-- The verb `%d` of Go's `fmt` applied to the `interface{}` argument of `FindAVP`: an
integer prints in decimal; a string is not an integer and prints as the bad-verb marker
`%!d(string=...)`. -/
def fmtD : Ident → GoString
  | .int i => toString i
  | .uint32 n => toString n
  | .str s => "%!d(string=" ++ s ++ ")"

/-- The call `fmt.Errorf("AVP %d (%s) not found", code, name)` of `FindAVP`. -/
def errorfNotFound (code : Ident) (name : GoString) : GoString :=
  "AVP " ++ fmtD code ++ " (" ++ name ++ ") not found"

/-- The method `Message.FindAVP` of `msg.go`.  The first call reads `m.Header.ApplicationId`
and hands `m.Dict` to the dictionary's lookup as its receiver, with no nil guard (unlike
`findCmd`): a nil header or a nil dictionary is a nil dereference.  The loop over `m.AVP`
returns at the first AVP whose code is the resolved one.  The scan and the error text take
the caller's `code`, not the resolved `davp.Code`. -/
def Message.FindAVP (m : Message) (code : Ident) : Run (Option Diam.AVP × Option GoString) :=
  match m.Header, m.Dict with
  | none, _ => .panic
  | some _, none => .panic
  | some h, some d =>
    match d.FindAVP h.ApplicationId code with
    | .error err => .done (none, some err)
    | .ok davp =>
      match m.AVP.find? (fun a => davp.Code == a.Code) with
      | some a => .done (some a, none)
      | none =>
        let name : GoString :=
          match d.ScanAVP code with
          | .error _ => "Unknown"
          | .ok avp => avp.Name
        .done (none, some (errorfNotFound code name))

/-- The function `findCmd` of `msg.go`.  The dictionary is consulted only when it is not
nil; the header is read in every path. -/
def findCmd (d : Option dict.Parser) (h : Option Header) : Run (GoString × GoString) :=
  match h with
  | none => .panic
  | some h =>
    let found : GoString × GoString :=
      match d with
      | none => ("", "")
      | some d =>
        match d.FindCmd h.ApplicationId h.CommandCode with
        | .ok cmd => (cmd.Name, cmd.Short)
        | .error _ => ("", "")
    let base : GoString × GoString := if found.1 = "" then ("Unknown", "") else found
    if h.CommandFlags &&& 0x80 > 0 then
      .done (base.1 ++ "-Request", base.2 ++ "R")
    else
      .done (base.1 ++ "-Answer", base.2 ++ "A")

/-- The call `fmt.Sprintf` of `Message.String`, on the command name, the short mnemonic and
the header. -/
def sprintfHeader (cmdName cmdShort : GoString) (h : Header) : GoString :=
  cmdName ++ " (" ++ cmdShort ++ ") Header\x7bCode=" ++ fmtDec h.CommandCode
    ++ ",Version=" ++ fmtDec h.Version
    ++ ",MessageLength=" ++ fmtDec h.MessageLength
    ++ ",CommandFlags=" ++ fmtSharpV h.CommandFlags
    ++ ",ApplicationId=" ++ fmtDec h.ApplicationId
    ++ ",HopByHopId=" ++ fmtSharpV h.HopByHopId
    ++ ",EndToEndId=" ++ fmtSharpV h.EndToEndId ++ "\x7d"

/-- The method `Message.String` of `msg.go`. -/
def Message.String (m : Message) : Run GoString :=
  match findCmd m.Dict m.Header, m.Header with
  | .done (cmdName, cmdShort), some h => .done (sprintfHeader cmdName cmdShort h)
  | _, _ => .panic

/-- The two streams `PrettyPrint` writes to: `os.Stderr` (by `fmt.Fprintln`) and the
standard output (by `fmt.Printf` and `fmt.Println`). -/
inductive Stream where
  | Stdout
  | Stderr
  deriving DecidableEq, Repr

/-- The method `Message.PrettyPrint` of `msg.go`, as the list of writes it performs, in
program order.  `Bytes` is the serialiser `m.Bytes()`, of which only the update of the
message matters here; `render` is the text `%s` prints for an AVP. -/
def Message.PrettyPrint (Bytes : Message → Message) (render : Diam.AVP → GoString) (m : Message) :
    Run (List (Stream × GoString)) :=
  let m := Bytes m
  match m.String with
  | .panic => .panic
  | .done s =>
    .done ((Stream.Stderr, s ++ "\n")
      :: (m.AVP.map fun avp => (Stream.Stdout, "  " ++ render avp ++ "\n"))
      ++ [(Stream.Stdout, "\n")])

/-! ## Sample data: a small dictionary and messages -/

/-- A dictionary that knows, for application 0, the AVP 264 `Origin-Host` (by code and by
name) and the command 257 `Capabilities-Exchange` / `CE`. -/
def baseDict : dict.Parser where
  FindAVP := fun app code =>
    if app = 0 ∧ (code = .int 264 ∨ code = .uint32 264 ∨ code = .str "Origin-Host") then
      .ok ⟨"Origin-Host", 264⟩
    else .error "Could not find AVP"
  ScanAVP := fun code =>
    if code = .int 264 ∨ code = .uint32 264 ∨ code = .str "Origin-Host" then
      .ok ⟨"Origin-Host", 264⟩
    else .error "Could not find AVP"
  FindCmd := fun app code =>
    if app = 0 ∧ code = 257 then .ok ⟨"Capabilities-Exchange", "CE"⟩
    else .error "Could not find command"

/-- A dictionary whose only AVP, code 1, carries the name `Unknown`. -/
def unknownDict : dict.Parser where
  FindAVP := fun _ code =>
    if code = .uint32 1 then .ok ⟨"Unknown", 1⟩ else .error "Could not find AVP"
  ScanAVP := fun code =>
    if code = .uint32 1 then .ok ⟨"Unknown", 1⟩ else .error "Could not find AVP"
  FindCmd := fun _ _ => .error "Could not find command"

/-- Header of a Capabilities-Exchange request: application 0, command 257, flags `0x80`. -/
def cerHeader : Header :=
  { Version := 1, MessageLength := 20, CommandFlags := 0x80, CommandCode := 257,
    ApplicationId := 0, HopByHopId := 0xabc, EndToEndId := 0 }

/-- The same header with the request bit clear (an answer), other flag bits set. -/
def ceaHeader : Header := { cerHeader with CommandFlags := 0x40 }

/-- A request that carries no AVP. -/
def cerEmpty : Message := ⟨some cerHeader, [], some baseDict⟩

/-- A request that carries Origin-Host (264) third, after two AVPs with other codes and before
a second Origin-Host. -/
def cerMessage : Message :=
  ⟨some cerHeader,
   [⟨263, 0x40, [1]⟩, ⟨296, 0x40, [2]⟩, ⟨264, 0x40, [3]⟩, ⟨264, 0x40, [4]⟩, ⟨258, 0x40, [5]⟩],
   some baseDict⟩

/-- A message without AVPs over the dictionary `unknownDict`. -/
def unknownMessage : Message := ⟨some cerHeader, [], some unknownDict⟩

/-- A dictionary whose command lookup succeeds with an empty name and the short
mnemonic `XY`. -/
def emptyNameDict : dict.Parser where
  FindAVP := fun _ _ => .error "Could not find AVP"
  ScanAVP := fun _ => .error "Could not find AVP"
  FindCmd := fun _ _ => .ok ⟨"", "XY"⟩

/-- A dictionary that knows no command. -/
def noCmdDict : dict.Parser where
  FindAVP := fun _ _ => .error "Could not find AVP"
  ScanAVP := fun _ => .error "Could not find AVP"
  FindCmd := fun _ _ => .error "Could not find command"

/-- An AVP rendering for the examples: the word `avp` and the code in decimal. -/
def sampleRender (a : AVP) : GoString := "avp " ++ fmtDec a.Code

/-- The line feed. -/
def newline : Char := Char.ofNat 10

/-- A message with a header and AVPs whose dictionary pointer is nil. -/
def noDictMessage : Message := ⟨some cerHeader, cerMessage.AVP, none⟩

/-- A dictionary in which code 1 is `Foo` for application 0 and `Bar` for application 4;
its scan by code alone answers `Foo`. -/
def twoAppDict : dict.Parser where
  FindAVP := fun app code =>
    if code = .uint32 1 then
      if app = 0 then .ok ⟨"Foo", 1⟩
      else if app = 4 then .ok ⟨"Bar", 1⟩
      else .error "Could not find AVP"
    else .error "Could not find AVP"
  ScanAVP := fun code =>
    if code = .uint32 1 then .ok ⟨"Foo", 1⟩ else .error "Could not find AVP"
  FindCmd := fun _ _ => .error "Could not find command"

/-- A message of application `app` over `twoAppDict`, carrying one AVP of code 7. -/
def twoAppMessage (app : Nat) : Message :=
  ⟨some { cerHeader with ApplicationId := app }, [⟨7, 0, []⟩], some twoAppDict⟩

/-- A serialiser for the examples: it sets the header length to 20 plus 12 for each AVP and
leaves everything else as it is. -/
def sampleBytes (m : Message) : Message :=
  { m with Header := m.Header.map fun h => { h with MessageLength := 20 + 12 * m.AVP.length } }

/-! ## Reading digits back -/

/-- The comma, which separates the fields of the rendered header. -/
def comma : Char := Char.ofNat 44

/-- The value of a digit character: the least `k < 16` that `Nat.digitChar` sends to it. -/
def digitValue (c : Char) : Nat :=
  ((List.range 16).find? fun k => Nat.digitChar k == c).getD 0

/-- The number a list of digit characters denotes in base `b`, most significant first. -/
def readDigits (b : Nat) (l : List Char) : Nat :=
  l.foldl (fun acc c => acc * b + digitValue c) 0

/-! ## Reference definition of the AVP lookup -/

/-- The first element of an AVP sequence whose code is `c`, if there is one. -/
def firstWithCode (c : Nat) : List AVP → Option AVP
  | [] => none
  | a :: rest => if a.Code = c then some a else firstWithCode c rest

/-- Reference definition, written from the words of the specification and not from the
code: resolve the identifier in the schema for the application id, then take the first
element of the AVP sequence whose code equals the resolved code. -/
def referenceFindAVP (d : dict.Parser) (app : Nat) (avps : List AVP) (code : Ident) :
    Option AVP :=
  match d.FindAVP app code with
  | .error _ => none
  | .ok davp => firstWithCode davp.Code avps

/-! ## Helper lemmas -/

/-- The test `CommandFlags&0x80 > 0` of `findCmd` reads bit 7 and nothing else. -/
theorem request_bit_iff (n : Nat) : n &&& 0x80 > 0 ↔ n.testBit 7 = true := by
  have h := Nat.and_two_pow n 7
  norm_num at h
  rw [h]
  cases n.testBit 7 <;> simp

/-- With a header, `findCmd` returns a base name and base mnemonic with the direction suffix
chosen by the request bit. -/
theorem findCmd_suffixed (d : Option dict.Parser) (h : Header) :
    ∃ b1 b2 : GoString, findCmd d (some h) =
      .done (if h.CommandFlags.testBit 7 = true then (b1 ++ "-Request", b2 ++ "R")
        else (b1 ++ "-Answer", b2 ++ "A")) := by
  by_cases hb : h.CommandFlags &&& 0x80 > 0
  · have ht : h.CommandFlags.testBit 7 = true := (request_bit_iff _).mp hb
    simp only [findCmd, if_pos hb, ht, if_true]
    exact ⟨_, _, rfl⟩
  · have ht : ¬ h.CommandFlags.testBit 7 = true := fun hc => hb ((request_bit_iff _).mpr hc)
    simp only [findCmd, if_neg hb, if_neg ht]
    exact ⟨_, _, rfl⟩

/-- With a header, `String` is the formatted header under the names `findCmd` returns. -/
theorem String_of_findCmd (m : Message) (h : Header) (name short : GoString)
    (hH : m.Header = some h) (hf : findCmd m.Dict m.Header = .done (name, short)) :
    m.String = .done (sprintfHeader name short h) := by
  rw [hH] at hf
  simp only [Message.String, hH, hf]

/-- With a header, `String` returns a text. -/
theorem String_done_of_header (m : Message) (h : Header) (hH : m.Header = some h) :
    ∃ s : GoString, m.String = .done s := by
  obtain ⟨b1, b2, hf⟩ := findCmd_suffixed m.Dict h
  rw [← hH] at hf
  exact ⟨_, String_of_findCmd m h _ _ hH hf⟩

/-- No character is a line feed among two candidates that are not. -/
theorem ite_ne_of_ne {c : Prop} [Decidable c] {a b x : Char} (ha : a ≠ x) (hb : b ≠ x) :
    (if c then a else b) ≠ x := by
  split <;> assumption

/-- A digit character is not a line feed. -/
theorem digitChar_ne_newline (k : Nat) : Nat.digitChar k ≠ newline := by
  unfold Nat.digitChar
  iterate 15 refine ite_ne_of_ne (by decide) ?_
  exact ite_ne_of_ne (by decide) (by decide)

/-- Digit generation adds no line feed. -/
theorem toDigitsCore_no_newline (b : Nat) : ∀ (fuel n : Nat) (ds : List Char),
    newline ∉ ds → newline ∉ Nat.toDigitsCore b fuel n ds
  | 0, _, ds, hds => by simpa [Nat.toDigitsCore] using hds
  | fuel + 1, n, ds, hds => by
    have hcons : newline ∉ Nat.digitChar (n % b) :: ds := by
      intro hmem
      rcases List.mem_cons.mp hmem with h | h
      · exact digitChar_ne_newline _ h.symm
      · exact hds h
    rw [Nat.toDigitsCore]
    split
    · exact hcons
    · exact toDigitsCore_no_newline b fuel (n / b) _ hcons

/-- The decimal rendering holds no line feed. -/
theorem fmtDec_no_newline (n : Nat) : newline ∉ (fmtDec n).data :=
  toDigitsCore_no_newline 10 (n + 1) n [] (List.not_mem_nil _)

/-- The hexadecimal rendering holds no line feed. -/
theorem fmtSharpV_no_newline (n : Nat) : newline ∉ (fmtSharpV n).data := by
  have hd := toDigitsCore_no_newline 16 (n + 1) n [] (List.not_mem_nil _)
  intro hmem
  simp only [fmtSharpV, String.data_append, List.mem_append] at hmem
  rcases hmem with h | h
  · exact absurd h (by decide)
  · exact hd h

/-- The formatted header holds a line feed only if the command name or mnemonic does. -/
theorem sprintfHeader_no_newline (name short : GoString) (h : Header)
    (hn : newline ∉ name.data) (hs : newline ∉ short.data) :
    newline ∉ (sprintfHeader name short h).data := by
  have d1 := fmtDec_no_newline h.CommandCode
  have d2 := fmtDec_no_newline h.Version
  have d3 := fmtDec_no_newline h.MessageLength
  have d4 := fmtSharpV_no_newline h.CommandFlags
  have d5 := fmtDec_no_newline h.ApplicationId
  have d6 := fmtSharpV_no_newline h.HopByHopId
  have d7 := fmtSharpV_no_newline h.EndToEndId
  intro hmem
  simp only [sprintfHeader, String.data_append, List.mem_append] at hmem
  have hlit : ∀ t : GoString, t ∈ [" (", ") Header\x7bCode=", ",Version=", ",MessageLength=",
      ",CommandFlags=", ",ApplicationId=", ",HopByHopId=", ",EndToEndId=", "\x7d"] →
      newline ∉ t.data := by decide
  have l1 := hlit " (" (by simp)
  have l2 := hlit ") Header\x7bCode=" (by simp)
  have l3 := hlit ",Version=" (by simp)
  have l4 := hlit ",MessageLength=" (by simp)
  have l5 := hlit ",CommandFlags=" (by simp)
  have l6 := hlit ",ApplicationId=" (by simp)
  have l7 := hlit ",HopByHopId=" (by simp)
  have l8 := hlit ",EndToEndId=" (by simp)
  have l9 := hlit "\x7d" (by simp)
  tauto

/-- A linear search returns the element at the first position where the test holds. -/
theorem find?_eq_get_of_first {α : Type} (p : α → Bool) :
    ∀ (l : List α) (k : Nat) (hk : k < l.length), p (l.get ⟨k, hk⟩) = true →
      (∀ (j : Nat) (hj : j < l.length), j < k → p (l.get ⟨j, hj⟩) = false) →
      l.find? p = some (l.get ⟨k, hk⟩)
  | [], k, hk, _, _ => absurd hk (Nat.not_lt_zero k)
  | a :: l, 0, _, hp, _ => by
    have ha : p a = true := hp
    simp [List.find?, ha]
  | a :: l, k + 1, hk, hp, hb => by
    have ha : p a = false := hb 0 (Nat.succ_pos _) (Nat.succ_pos _)
    have hk2 : k < l.length := Nat.lt_of_succ_lt_succ hk
    have ih := find?_eq_get_of_first p l k hk2 hp
      (fun j hj hjk => hb (j + 1) (Nat.succ_lt_succ hj) (Nat.succ_lt_succ hjk))
    simpa [List.find?, ha] using ih

/-- The not-found text determines the name it carries. -/
theorem errorfNotFound_inj (code : Ident) (a b : GoString)
    (hab : errorfNotFound code a = errorfNotFound code b) : a = b := by
  have hd := congrArg String.data hab
  simp only [errorfNotFound, String.data_append, List.append_assoc] at hd
  have h1 := List.append_cancel_left (List.append_cancel_left (List.append_cancel_left hd))
  exact String.ext (List.append_cancel_right h1)

/-- The scan of `FindAVP` finds nothing when no AVP carries the code. -/
theorem find?_code_none (c : Nat) (l : List AVP) (hno : ∀ a ∈ l, a.Code ≠ c) :
    l.find? (fun a => c == a.Code) = none := by
  rw [List.find?_eq_none]
  intro a ha
  simpa using fun hc => hno a ha hc.symm

/-- Shape of the result of `FindAVP` when the schema resolves the identifier and no AVP
carries the resolved code. -/
theorem FindAVP_of_no_match (m : Message) (h : Header) (d : dict.Parser) (code : Ident)
    (davp : dict.AVP) (hH : m.Header = some h) (hD : m.Dict = some d)
    (hres : d.FindAVP h.ApplicationId code = .ok davp)
    (hno : ∀ a ∈ m.AVP, a.Code ≠ davp.Code) :
    m.FindAVP code = .done (none, some (errorfNotFound code
      (match d.ScanAVP code with
        | .error _ => "Unknown"
        | .ok avp => avp.Name))) := by
  simp only [Message.FindAVP, hH, hD, hres, find?_code_none davp.Code m.AVP hno]

/-! ## Theorems: AVP resolution -/

/-- C1: when the schema resolves the identifier (code or name) to a canonical code and the
first AVP with that code stands at position `k`, `FindAVP` returns exactly the AVP at
position `k` and no error, whatever surrounds it. -/
theorem FindAVP_returns_first_match (m : Message) (h : Header) (d : dict.Parser)
    (code : Ident) (davp : dict.AVP) (k : Nat) (hk : k < m.AVP.length)
    (hH : m.Header = some h) (hD : m.Dict = some d)
    (hres : d.FindAVP h.ApplicationId code = .ok davp)
    (hat : (m.AVP.get ⟨k, hk⟩).Code = davp.Code)
    (hbefore : ∀ (j : Nat) (hj : j < m.AVP.length), j < k →
      (m.AVP.get ⟨j, hj⟩).Code ≠ davp.Code) :
    m.FindAVP code = .done (some (m.AVP.get ⟨k, hk⟩), none) := by
  have hfind := find?_eq_get_of_first (fun a : AVP => davp.Code == a.Code) m.AVP k hk
    (by simpa using hat.symm)
    (fun j hj hjk => by simpa using fun hc => hbefore j hj hjk hc.symm)
  simp only [Message.FindAVP, hH, hD, hres, hfind]

/-- Witness of C1: in `cerMessage` the name `Origin-Host` resolves to 264, whose first
occurrence is at position 2. -/
theorem FindAVP_returns_first_match_witness :
    cerMessage.FindAVP (.str "Origin-Host") = .done (some ⟨264, 0x40, [3]⟩, none) :=
  FindAVP_returns_first_match cerMessage cerHeader baseDict (.str "Origin-Host")
    ⟨"Origin-Host", 264⟩ 2 (by decide) rfl rfl rfl rfl (by decide)

/-- C2: when the schema's AVP-definition lookup for the message's application id fails,
`FindAVP` returns no AVP and exactly the schema's error, and the result stays the same under
every AVP sequence and every code-only scan put in their place. -/
theorem FindAVP_schema_lookup_failed (m : Message) (h : Header) (d : dict.Parser)
    (code : Ident) (e : GoString) (hH : m.Header = some h) (hD : m.Dict = some d)
    (hres : d.FindAVP h.ApplicationId code = .error e) :
    m.FindAVP code = .done (none, some e) ∧
    ∀ (avps : List AVP) (scan : Ident → Except GoString dict.AVP),
      Message.FindAVP ⟨m.Header, avps, some ⟨d.FindAVP, scan, d.FindCmd⟩⟩ code
        = .done (none, some e) := by
  refine ⟨?_, fun avps scan => ?_⟩
  · simp only [Message.FindAVP, hH, hD, hres]
  · simp only [Message.FindAVP, hH, hres]

/-- Witness of C2: `baseDict` has no AVP named `Foo`, and `cerMessage` carries AVPs. -/
theorem FindAVP_schema_lookup_failed_witness :
    cerMessage.FindAVP (.str "Foo") = .done (none, some "Could not find AVP") ∧
    ∀ (avps : List AVP) (scan : Ident → Except GoString dict.AVP),
      Message.FindAVP ⟨cerMessage.Header, avps,
        some ⟨baseDict.FindAVP, scan, baseDict.FindCmd⟩⟩ (.str "Foo")
        = .done (none, some "Could not find AVP") :=
  FindAVP_schema_lookup_failed cerMessage cerHeader baseDict (.str "Foo")
    "Could not find AVP" rfl rfl rfl

/-- C3 (evaluation at the failing input): the name `Origin-Host` resolves to code 264 and the
message carries no such AVP; the error text is built from the identifier, not from the
resolved code, so it holds the bad-verb marker and nowhere the number 264. -/
theorem FindAVP_not_found_by_name_text :
    baseDict.FindAVP 0 (.str "Origin-Host") = .ok ⟨"Origin-Host", 264⟩ ∧
    cerEmpty.FindAVP (.str "Origin-Host")
      = .done (none, some "AVP %!d(string=Origin-Host) (Origin-Host) not found") ∧
    cerEmpty.FindAVP (.uint32 264)
      = .done (none, some "AVP 264 (Origin-Host) not found") := by
  refine ⟨rfl, ?_, ?_⟩ <;> decide

/-- C4 (as stated, refuted): over `unknownDict` the code-only scan for code 1 succeeds, yet
the not-found error carries the name `Unknown`. -/
theorem FindAVP_unknown_name_without_scan_failure :
    ¬ (unknownMessage.FindAVP (.uint32 1)
          = .done (none, some (errorfNotFound (.uint32 1) "Unknown")) ↔
        ∃ e, unknownDict.ScanAVP (.uint32 1) = .error e) := by
  intro hiff
  obtain ⟨e, he⟩ := hiff.mp (by decide)
  exact absurd he (by simp [unknownDict])

/-- C4 (amended): with no AVP of the resolved code, the error of `FindAVP` is the not-found
text; its name is `Unknown` when the scan of the identifier fails (the scan's error is
dropped), it is the scanned name when the scan succeeds, and so it is `Unknown` exactly when
the scan fails or itself yields the name `Unknown`. -/
theorem FindAVP_not_found_name (m : Message) (h : Header) (d : dict.Parser) (code : Ident)
    (davp : dict.AVP) (hH : m.Header = some h) (hD : m.Dict = some d)
    (hres : d.FindAVP h.ApplicationId code = .ok davp)
    (hno : ∀ a ∈ m.AVP, a.Code ≠ davp.Code) :
    (∀ e, d.ScanAVP code = .error e →
      m.FindAVP code = .done (none, some (errorfNotFound code "Unknown"))) ∧
    (∀ s, d.ScanAVP code = .ok s →
      m.FindAVP code = .done (none, some (errorfNotFound code s.Name))) ∧
    (m.FindAVP code = .done (none, some (errorfNotFound code "Unknown")) ↔
      ((∃ e, d.ScanAVP code = .error e) ∨ ∃ s, d.ScanAVP code = .ok s ∧ s.Name = "Unknown")) := by
  have hshape := FindAVP_of_no_match m h d code davp hH hD hres hno
  refine ⟨fun e he => ?_, fun s hs => ?_, ?_⟩
  · rw [hshape, he]
  · rw [hshape, hs]
  · rw [hshape]
    cases hscan : d.ScanAVP code with
    | error e => simp
    | ok s =>
      simp only [Run.done.injEq, Prod.mk.injEq, Option.some.injEq, true_and, false_or,
        Except.ok.injEq, exists_eq_left', reduceCtorEq, exists_false]
      exact ⟨fun hab => errorfNotFound_inj code _ _ hab, fun hn => by rw [hn]⟩

/-- Witness of C4 (amended): `cerEmpty` carries nothing, and 264 is scanned as
`Origin-Host`. -/
theorem FindAVP_not_found_name_witness :
    (∀ e, baseDict.ScanAVP (.int 264) = .error e →
      cerEmpty.FindAVP (.int 264) = .done (none, some (errorfNotFound (.int 264) "Unknown"))) ∧
    (∀ s, baseDict.ScanAVP (.int 264) = .ok s →
      cerEmpty.FindAVP (.int 264) = .done (none, some (errorfNotFound (.int 264) s.Name))) ∧
    (cerEmpty.FindAVP (.int 264) = .done (none, some (errorfNotFound (.int 264) "Unknown")) ↔
      ((∃ e, baseDict.ScanAVP (.int 264) = .error e) ∨
        ∃ s, baseDict.ScanAVP (.int 264) = .ok s ∧ s.Name = "Unknown")) :=
  FindAVP_not_found_name cerEmpty cerHeader baseDict (.int 264) ⟨"Origin-Host", 264⟩
    rfl rfl rfl (by simp [cerEmpty])

/-- C5: for a numeric identifier `c` (an `int` or a `uint32`) that the schema resolves to
code `c` and that the code-only scan names `N`, a message without an AVP of code `c` makes
`FindAVP` fail with the text `AVP <c in decimal> (<N>) not found`. -/
theorem FindAVP_not_found_text (m : Message) (h : Header) (d : dict.Parser) (c : Nat)
    (code : Ident) (N : GoString) (davp scanned : dict.AVP)
    (hcode : code = .int c ∨ code = .uint32 c)
    (hH : m.Header = some h) (hD : m.Dict = some d)
    (hres : d.FindAVP h.ApplicationId code = .ok davp) (hC : davp.Code = c)
    (hscan : d.ScanAVP code = .ok scanned) (hN : scanned.Name = N)
    (hno : ∀ a ∈ m.AVP, a.Code ≠ c) :
    m.FindAVP code = .done (none, some ("AVP " ++ fmtDec c ++ " (" ++ N ++ ") not found")) := by
  have hshape := FindAVP_of_no_match m h d code davp hH hD hres (by rw [hC]; exact hno)
  rw [hshape, hscan]
  subst hN
  rcases hcode with rfl | rfl <;> rfl

/-- Witness of C5: identifier 264, scanned as `Origin-Host`, absent from `cerEmpty`; the text
is `AVP 264 (Origin-Host) not found` and not the one with `Unknown`. -/
theorem FindAVP_not_found_text_witness :
    cerEmpty.FindAVP (.int 264) = .done (none, some "AVP 264 (Origin-Host) not found") ∧
    cerEmpty.FindAVP (.int 264) ≠ .done (none, some "AVP 264 (Unknown) not found") :=
  ⟨FindAVP_not_found_text cerEmpty cerHeader baseDict 264 (.int 264) "Origin-Host"
      ⟨"Origin-Host", 264⟩ ⟨"Origin-Host", 264⟩ (Or.inl rfl) rfl rfl rfl rfl rfl rfl
      (by simp [cerEmpty]),
    by decide⟩

/-! ## Theorems: header rendering -/

/-- C6: with a header whose flag bit `0x80` (bit 7) is set, the name from `findCmd` ends in
`-Request` and the mnemonic in `R`; with the bit clear, whatever the other bits, they end in
`-Answer` and `A`.  `String` renders these very names.  The dictionary is any: absent,
failing, answering an empty name, or answering a name. -/
theorem findCmd_direction_suffix (d : Option dict.Parser) (h : Header) (avps : List AVP) :
    ∃ name short : GoString,
      findCmd d (some h) = .done (name, short) ∧
      Message.String ⟨some h, avps, d⟩ = .done (sprintfHeader name short h) ∧
      (if h.CommandFlags.testBit 7 = true then
        (∃ b : GoString, name = b ++ "-Request") ∧ (∃ b : GoString, short = b ++ "R")
      else (∃ b : GoString, name = b ++ "-Answer") ∧ (∃ b : GoString, short = b ++ "A")) := by
  obtain ⟨b1, b2, hf⟩ := findCmd_suffixed d h
  by_cases ht : h.CommandFlags.testBit 7 = true
  · rw [if_pos ht] at hf
    refine ⟨_, _, hf, String_of_findCmd ⟨some h, avps, d⟩ h _ _ rfl hf, ?_⟩
    rw [if_pos ht]
    exact ⟨⟨b1, rfl⟩, ⟨b2, rfl⟩⟩
  · rw [if_neg ht] at hf
    refine ⟨_, _, hf, String_of_findCmd ⟨some h, avps, d⟩ h _ _ rfl hf, ?_⟩
    rw [if_neg ht]
    exact ⟨⟨b1, rfl⟩, ⟨b2, rfl⟩⟩

/-- C7: with a header, when the dictionary is absent, or its command lookup fails, or it
succeeds with an empty name (whatever the mnemonic), `findCmd` returns, and returns exactly
`Unknown-Request`, `R` if bit `0x80` is set and `Unknown-Answer`, `A` otherwise. -/
theorem findCmd_unknown_fallback (d : Option dict.Parser) (h : Header)
    (hfall : d = none ∨ ∃ p, d = some p ∧
      ((∃ e, p.FindCmd h.ApplicationId h.CommandCode = .error e) ∨
        ∃ cmd, p.FindCmd h.ApplicationId h.CommandCode = .ok cmd ∧ cmd.Name = "")) :
    findCmd d (some h) =
      .done (if h.CommandFlags.testBit 7 = true then ("Unknown-Request", "R")
        else ("Unknown-Answer", "A")) := by
  have hfound : findCmd d (some h) =
      (if h.CommandFlags &&& 0x80 > 0 then .done ("Unknown" ++ "-Request", "" ++ "R")
        else .done ("Unknown" ++ "-Answer", "" ++ "A")) := by
    rcases hfall with rfl | ⟨p, rfl, ⟨e, he⟩ | ⟨cmd, hc, hname⟩⟩
    · simp only [findCmd, if_true]
    · simp only [findCmd, he, if_true]
    · simp only [findCmd, hc, hname, if_true]
  rw [hfound]
  by_cases hb : h.CommandFlags &&& 0x80 > 0
  · rw [if_pos hb, if_pos ((request_bit_iff _).mp hb)]
    rfl
  · rw [if_neg hb, if_neg (fun hc => hb ((request_bit_iff _).mpr hc))]
    rfl

/-- Witness of C7: the three fallback cases on a request header, and one on an answer. -/
theorem findCmd_unknown_fallback_witness :
    findCmd none (some cerHeader) = .done ("Unknown-Request", "R") ∧
    findCmd (some noCmdDict) (some cerHeader) = .done ("Unknown-Request", "R") ∧
    findCmd (some emptyNameDict) (some cerHeader) = .done ("Unknown-Request", "R") ∧
    findCmd (some emptyNameDict) (some ceaHeader) = .done ("Unknown-Answer", "A") :=
  ⟨findCmd_unknown_fallback none cerHeader (Or.inl rfl),
   findCmd_unknown_fallback (some noCmdDict) cerHeader
     (Or.inr ⟨noCmdDict, rfl, Or.inl ⟨"Could not find command", rfl⟩⟩),
   findCmd_unknown_fallback (some emptyNameDict) cerHeader
     (Or.inr ⟨emptyNameDict, rfl, Or.inr ⟨⟨"", "XY"⟩, rfl, rfl⟩⟩),
   findCmd_unknown_fallback (some emptyNameDict) ceaHeader
     (Or.inr ⟨emptyNameDict, rfl, Or.inr ⟨⟨"", "XY"⟩, rfl, rfl⟩⟩)⟩

/-- With a header and a dictionary that names the command, `findCmd` returns the
dictionary's name and mnemonic with the direction suffix. -/
theorem findCmd_of_named (d : dict.Parser) (h : Header) (cmd : dict.Cmd)
    (hcmd : d.FindCmd h.ApplicationId h.CommandCode = .ok cmd) (hne : cmd.Name ≠ "") :
    findCmd (some d) (some h) =
      .done (if h.CommandFlags.testBit 7 = true then (cmd.Name ++ "-Request", cmd.Short ++ "R")
        else (cmd.Name ++ "-Answer", cmd.Short ++ "A")) := by
  by_cases hb : h.CommandFlags &&& 0x80 > 0
  · simp only [findCmd, hcmd, if_neg hne, if_pos hb, if_pos ((request_bit_iff _).mp hb)]
  · simp only [findCmd, hcmd, if_neg hne, if_neg hb,
      if_neg (fun hc => hb ((request_bit_iff _).mpr hc))]

/-- The formatted header, split after the opening brace. -/
theorem sprintfHeader_split (base suffix short dir : GoString) (h : Header) :
    ∃ rest : GoString, sprintfHeader (base ++ suffix) (short ++ dir) h =
      base ++ (suffix ++ " (") ++ short ++ (dir ++ ") Header\x7b") ++ rest := by
  refine ⟨"Code=" ++ fmtDec h.CommandCode
    ++ ",Version=" ++ fmtDec h.Version
    ++ ",MessageLength=" ++ fmtDec h.MessageLength
    ++ ",CommandFlags=" ++ fmtSharpV h.CommandFlags
    ++ ",ApplicationId=" ++ fmtDec h.ApplicationId
    ++ ",HopByHopId=" ++ fmtSharpV h.HopByHopId
    ++ ",EndToEndId=" ++ fmtSharpV h.EndToEndId ++ "\x7d", ?_⟩
  have hlit : (") Header\x7bCode=" : GoString) = ") Header\x7b" ++ "Code=" := by decide
  simp only [sprintfHeader, hlit, String.append_assoc]

/-- C8: when the dictionary defines the message's command with a non-empty name `N` and
mnemonic `S`, `String` returns a text that begins with `N-Request (SR) Header` and the opening
brace if bit `0x80` is set, and with `N-Answer (SA) Header` and the opening brace otherwise. -/
theorem String_begins_with_command (m : Message) (h : Header) (d : dict.Parser)
    (cmd : dict.Cmd) (hH : m.Header = some h) (hD : m.Dict = some d)
    (hcmd : d.FindCmd h.ApplicationId h.CommandCode = .ok cmd) (hne : cmd.Name ≠ "") :
    ∃ rest : GoString, m.String = .done
      (if h.CommandFlags.testBit 7 = true then
        cmd.Name ++ "-Request (" ++ cmd.Short ++ "R) Header\x7b" ++ rest
      else cmd.Name ++ "-Answer (" ++ cmd.Short ++ "A) Header\x7b" ++ rest) := by
  have hf := findCmd_of_named d h cmd hcmd hne
  rw [← hD, ← hH] at hf
  by_cases ht : h.CommandFlags.testBit 7 = true
  · rw [if_pos ht] at hf
    obtain ⟨rest, hrest⟩ := sprintfHeader_split cmd.Name "-Request" cmd.Short "R" h
    refine ⟨rest, ?_⟩
    rw [if_pos ht, String_of_findCmd m h _ _ hH hf, hrest]
    rfl
  · rw [if_neg ht] at hf
    obtain ⟨rest, hrest⟩ := sprintfHeader_split cmd.Name "-Answer" cmd.Short "A" h
    refine ⟨rest, ?_⟩
    rw [if_neg ht, String_of_findCmd m h _ _ hH hf, hrest]
    rfl

/-- Witness of C8: application 0, command 257, flags `0x80`, dictionary entry
`Capabilities-Exchange` / `CE`: the text begins with `Capabilities-Exchange-Request (CER) `. -/
theorem String_begins_with_command_witness :
    ∃ rest : GoString, cerEmpty.String =
      .done ("Capabilities-Exchange-Request (CER) " ++ ("Header\x7b" ++ rest)) := by
  obtain ⟨rest, hrest⟩ := String_begins_with_command cerEmpty cerHeader baseDict
    ⟨"Capabilities-Exchange", "CE"⟩ rfl rfl rfl (by decide)
  refine ⟨rest, ?_⟩
  rw [hrest, if_pos (by decide), ← String.append_assoc]
  rfl

/-- C9: with a header, `String` returns exactly the name and mnemonic of `findCmd` followed
by the seven header values in the fixed layout, the command code, version, length and
application id in decimal, the flags and the two identifiers in `0x` hexadecimal; the text
holds no line feed whenever the name and the mnemonic hold none. -/
theorem String_exact_format (m : Message) (h : Header) (hH : m.Header = some h) :
    ∃ name short : GoString,
      findCmd m.Dict m.Header = .done (name, short) ∧
      m.String = .done (name ++ " (" ++ short ++ ") Header\x7bCode=" ++ fmtDec h.CommandCode
        ++ ",Version=" ++ fmtDec h.Version
        ++ ",MessageLength=" ++ fmtDec h.MessageLength
        ++ ",CommandFlags=" ++ fmtSharpV h.CommandFlags
        ++ ",ApplicationId=" ++ fmtDec h.ApplicationId
        ++ ",HopByHopId=" ++ fmtSharpV h.HopByHopId
        ++ ",EndToEndId=" ++ fmtSharpV h.EndToEndId ++ "\x7d") ∧
      (newline ∉ name.data → newline ∉ short.data →
        ∀ s : GoString, m.String = .done s → newline ∉ s.data) := by
  obtain ⟨b1, b2, hf⟩ := findCmd_suffixed m.Dict h
  rw [← hH] at hf
  have hs := String_of_findCmd m h _ _ hH hf
  refine ⟨_, _, hf, hs, fun hn hsh s hms => ?_⟩
  rw [hs] at hms
  rw [← Run.done.inj hms]
  exact sprintfHeader_no_newline _ _ h hn hsh

/-- Witness of C9: the header of `cerEmpty`, in full. -/
theorem String_exact_format_witness :
    cerEmpty.String = .done ("Capabilities-Exchange-Request (CER) Header\x7bCode=257,"
      ++ "Version=1,MessageLength=20,CommandFlags=0x80,ApplicationId=0,HopByHopId=0xabc,"
      ++ "EndToEndId=0x0\x7d") ∧
    newline ∉ ("Capabilities-Exchange-Request (CER) Header\x7bCode=257,"
      ++ "Version=1,MessageLength=20,CommandFlags=0x80,ApplicationId=0,HopByHopId=0xabc,"
      ++ "EndToEndId=0x0\x7d" : GoString).data := by
  obtain ⟨name, short, hf, hs, hline⟩ := String_exact_format cerEmpty cerHeader rfl
  have hns : (name, short) = ("Capabilities-Exchange-Request", "CER") :=
    Run.done.inj (hf.symm.trans (by decide))
  obtain ⟨rfl, rfl⟩ := Prod.mk.inj hns
  exact ⟨by decide, hline (by decide) (by decide) _ (by decide)⟩

/-! ## Theorems: pretty printing -/

/-- C10 (as stated, refuted): on `cerMessage`, with the serialiser leaving the message as it
is, the texts written are not the header line, the bare rendering of each AVP on a line, and
a blank line: every AVP line starts with two spaces. -/
theorem PrettyPrint_lines_not_bare_rendering :
    ∃ (evs : List (Stream × GoString)) (s : GoString),
      cerMessage.PrettyPrint id sampleRender = .done evs ∧
      cerMessage.String = .done s ∧
      evs.map Prod.snd ≠
        (s ++ "\n") :: cerMessage.AVP.map (fun a => sampleRender a ++ "\n") ++ ["\n"] ∧
      evs.map Prod.snd = [s ++ "\n", "  avp 263\n", "  avp 296\n", "  avp 264\n",
        "  avp 264\n", "  avp 258\n", "\n"] :=
  ⟨_, _, rfl, rfl, by decide, by decide⟩

/-- C10 (amended): when the message has a header after `Bytes()`, `PrettyPrint` performs, in
this order, exactly `n + 2` writes, `n` the number of AVPs: the text of `String()` and a line
feed; for each AVP in sequence order two spaces, its rendering and a line feed; a lone line
feed.  Message and AVP sequence are those left by `Bytes()`. -/
theorem PrettyPrint_writes (Bytes : Message → Message) (render : AVP → GoString)
    (m : Message) (h : Header) (hH : (Bytes m).Header = some h) :
    ∃ (s : GoString) (evs : List (Stream × GoString)),
      (Bytes m).String = .done s ∧
      m.PrettyPrint Bytes render = .done evs ∧
      evs.map Prod.snd =
        (s ++ "\n") :: (Bytes m).AVP.map (fun a => "  " ++ render a ++ "\n") ++ ["\n"] ∧
      evs.length = (Bytes m).AVP.length + 2 := by
  obtain ⟨s, hs⟩ := String_done_of_header (Bytes m) h hH
  refine ⟨s, (Stream.Stderr, s ++ "\n")
      :: ((Bytes m).AVP.map fun avp => (Stream.Stdout, "  " ++ render avp ++ "\n"))
      ++ [(Stream.Stdout, "\n")], hs, ?_, ?_, ?_⟩
  · simp only [Message.PrettyPrint, hs]
  · simp [Function.comp_def]
  · simp

/-- Witness of C10 (amended): `cerMessage` with the serialiser leaving it as it is. -/
theorem PrettyPrint_writes_witness :
    ∃ (s : GoString) (evs : List (Stream × GoString)),
      (id cerMessage).String = .done s ∧
      cerMessage.PrettyPrint id sampleRender = .done evs ∧
      evs.map Prod.snd =
        (s ++ "\n") :: (id cerMessage).AVP.map (fun a => "  " ++ sampleRender a ++ "\n")
          ++ ["\n"] ∧
      evs.length = (id cerMessage).AVP.length + 2 :=
  PrettyPrint_writes id sampleRender cerMessage cerHeader rfl

/-! ## Theorems: absent dictionary, fallback name, reference lookup -/

/-- The search of `FindAVP` is the reference search for the first AVP with the code. -/
theorem find?_eq_firstWithCode (c : Nat) (l : List AVP) :
    l.find? (fun a => c == a.Code) = firstWithCode c l := by
  induction l with
  | nil => rfl
  | cons a rest ih =>
    by_cases hc : a.Code = c
    · have hb : (c == a.Code) = true := by simpa using hc.symm
      simp [List.find?, firstWithCode, hb, hc]
    · have hb : (c == a.Code) = false := by simpa using fun h => hc h.symm
      simp [List.find?, firstWithCode, hb, hc, ih]

/-- What the reference search returns is an element of the sequence with the code. -/
theorem firstWithCode_some (c : Nat) (l : List AVP) (a : AVP)
    (h : firstWithCode c l = some a) : a ∈ l ∧ a.Code = c := by
  induction l with
  | nil => simp [firstWithCode] at h
  | cons b rest ih =>
    by_cases hc : b.Code = c
    · simp only [firstWithCode, if_pos hc, Option.some.injEq] at h
      subst h
      exact ⟨List.mem_cons_self _ _, hc⟩
    · simp only [firstWithCode, if_neg hc] at h
      exact ⟨List.mem_cons_of_mem _ (ih h).1, (ih h).2⟩

/-- The reference search finds something exactly when an element has the code. -/
theorem firstWithCode_isSome (c : Nat) (l : List AVP) :
    (firstWithCode c l).isSome = true ↔ ∃ a ∈ l, a.Code = c := by
  induction l with
  | nil => simp [firstWithCode]
  | cons b rest ih =>
    by_cases hc : b.Code = c
    · simp [firstWithCode, hc]
    · simp [firstWithCode, hc, ih]

/-- C11 (evaluation at the failing input): with a nil dictionary `FindAVP` does not return an
error, it panics, for a numeric and for a symbolic identifier; `findCmd` on the same header
and nil dictionary returns. -/
theorem FindAVP_nil_dict_panics :
    noDictMessage.FindAVP (.uint32 264) = .panic ∧
    noDictMessage.FindAVP (.str "Origin-Host") = .panic ∧
    findCmd noDictMessage.Dict noDictMessage.Header = .done ("Unknown-Request", "R") := by
  refine ⟨rfl, rfl, ?_⟩
  decide

/-- C12: for two messages over the same dictionary (in particular two that differ only in
the application id of the header) and an identifier that resolves for both and matches no
AVP in either, the two not-found errors carry the same name: the one the scan of the
identifier gives, or `Unknown`.  The application ids do not enter. -/
theorem FindAVP_fallback_name_ignores_application (m1 m2 : Message) (h1 h2 : Header)
    (d : dict.Parser) (code : Ident) (davp1 davp2 : dict.AVP)
    (hH1 : m1.Header = some h1) (hH2 : m2.Header = some h2)
    (hD1 : m1.Dict = some d) (hD2 : m2.Dict = some d)
    (hres1 : d.FindAVP h1.ApplicationId code = .ok davp1)
    (hres2 : d.FindAVP h2.ApplicationId code = .ok davp2)
    (hno1 : ∀ a ∈ m1.AVP, a.Code ≠ davp1.Code)
    (hno2 : ∀ a ∈ m2.AVP, a.Code ≠ davp2.Code) :
    ∃ name : GoString,
      m1.FindAVP code = .done (none, some (errorfNotFound code name)) ∧
      m2.FindAVP code = .done (none, some (errorfNotFound code name)) ∧
      name = (match d.ScanAVP code with
        | .error _ => "Unknown"
        | .ok avp => avp.Name) :=
  ⟨_, FindAVP_of_no_match m1 h1 d code davp1 hH1 hD1 hres1 hno1,
    FindAVP_of_no_match m2 h2 d code davp2 hH2 hD2 hres2 hno2, rfl⟩

/-- Witness of C12: code 1 is `Foo` in application 0 and `Bar` in application 4; both errors
name it `Foo`. -/
theorem FindAVP_fallback_name_ignores_application_witness :
    ∃ name : GoString,
      (twoAppMessage 0).FindAVP (.uint32 1)
        = .done (none, some (errorfNotFound (.uint32 1) name)) ∧
      (twoAppMessage 4).FindAVP (.uint32 1)
        = .done (none, some (errorfNotFound (.uint32 1) name)) ∧
      name = (match twoAppDict.ScanAVP (.uint32 1) with
        | .error _ => "Unknown"
        | .ok avp => avp.Name) :=
  FindAVP_fallback_name_ignores_application (twoAppMessage 0) (twoAppMessage 4)
    { cerHeader with ApplicationId := 0 } { cerHeader with ApplicationId := 4 } twoAppDict
    (.uint32 1) ⟨"Foo", 1⟩ ⟨"Bar", 1⟩ rfl rfl rfl rfl rfl rfl
    (by simp [twoAppMessage]) (by simp [twoAppMessage])

/-- C15: for a message with a header and a dictionary, `FindAVP` returns the AVP of the
reference definition; it returns an AVP exactly when the dictionary resolves the identifier
to a code that some AVP of the sequence carries; a returned AVP is an element of the
sequence and carries the resolved code; and exactly one of AVP and error is returned. -/
theorem FindAVP_refines_reference (m : Message) (h : Header) (d : dict.Parser)
    (code : Ident) (hH : m.Header = some h) (hD : m.Dict = some d) :
    ∃ (ra : Option AVP) (re : Option GoString),
      m.FindAVP code = .done (ra, re) ∧
      ra = referenceFindAVP d h.ApplicationId m.AVP code ∧
      (ra.isSome = true ↔ ∃ davp, d.FindAVP h.ApplicationId code = .ok davp ∧
        ∃ a ∈ m.AVP, a.Code = davp.Code) ∧
      (∀ a, ra = some a → a ∈ m.AVP ∧
        ∃ davp, d.FindAVP h.ApplicationId code = .ok davp ∧ a.Code = davp.Code) ∧
      ((ra.isSome = true ∧ re = none) ∨ (ra = none ∧ re.isSome = true)) := by
  cases hres : d.FindAVP h.ApplicationId code with
  | error e =>
    refine ⟨none, some e, ?_, ?_, ?_, ?_, Or.inr ⟨rfl, rfl⟩⟩
    · simp only [Message.FindAVP, hH, hD, hres]
    · simp only [referenceFindAVP, hres]
    · simp
    · intro a ha
      cases ha
  | ok davp =>
    have hfind := find?_eq_firstWithCode davp.Code m.AVP
    cases hfirst : firstWithCode davp.Code m.AVP with
    | none =>
      rw [hfirst] at hfind
      have hnone : ¬ ∃ a ∈ m.AVP, a.Code = davp.Code := by
        rw [← firstWithCode_isSome, hfirst]
        simp
      refine ⟨none, some (errorfNotFound code
        (match d.ScanAVP code with
          | .error _ => "Unknown"
          | .ok avp => avp.Name)), ?_, ?_, ?_, ?_, Or.inr ⟨rfl, rfl⟩⟩
      · simp only [Message.FindAVP, hH, hD, hres, hfind]
      · simp only [referenceFindAVP, hres, hfirst]
      · simpa using hnone
      · intro a ha
        cases ha
    | some a =>
      rw [hfirst] at hfind
      obtain ⟨hmem, hcode⟩ := firstWithCode_some davp.Code m.AVP a hfirst
      refine ⟨some a, none, ?_, ?_, ?_, ?_, Or.inl ⟨rfl, rfl⟩⟩
      · simp only [Message.FindAVP, hH, hD, hres, hfind]
      · simp only [referenceFindAVP, hres, hfirst]
      · simp only [Option.isSome_some, true_iff]
        exact ⟨davp, rfl, a, hmem, hcode⟩
      · intro b hb
        cases hb
        exact ⟨hmem, davp, rfl, hcode⟩

/-- Witness of C15: `cerMessage` and the name `Origin-Host`. -/
theorem FindAVP_refines_reference_witness :
    ∃ (ra : Option AVP) (re : Option GoString),
      cerMessage.FindAVP (.str "Origin-Host") = .done (ra, re) ∧
      ra = referenceFindAVP baseDict cerHeader.ApplicationId cerMessage.AVP
        (.str "Origin-Host") ∧
      (ra.isSome = true ↔
        ∃ davp, baseDict.FindAVP cerHeader.ApplicationId (.str "Origin-Host") = .ok davp ∧
          ∃ a ∈ cerMessage.AVP, a.Code = davp.Code) ∧
      (∀ a, ra = some a → a ∈ cerMessage.AVP ∧
        ∃ davp, baseDict.FindAVP cerHeader.ApplicationId (.str "Origin-Host") = .ok davp ∧
          a.Code = davp.Code) ∧
      ((ra.isSome = true ∧ re = none) ∨ (ra = none ∧ re.isSome = true)) :=
  FindAVP_refines_reference cerMessage cerHeader baseDict (.str "Origin-Host") rfl rfl

/-! ## Helper lemmas: the rendered header can be read back -/

/-- The value of the character of a digit below 16 is the digit. -/
theorem digitValue_digitChar : ∀ k, k < 16 → digitValue (Nat.digitChar k) = k := by
  decide

/-- Digit generation puts its digits in front of the accumulator. -/
theorem toDigitsCore_append (b : Nat) : ∀ (fuel n : Nat) (ds : List Char),
    Nat.toDigitsCore b fuel n ds = Nat.toDigitsCore b fuel n [] ++ ds
  | 0, _, ds => by simp [Nat.toDigitsCore]
  | fuel + 1, n, ds => by
    rw [Nat.toDigitsCore, Nat.toDigitsCore]
    split
    · rfl
    · rw [toDigitsCore_append b fuel (n / b) (Nat.digitChar (n % b) :: ds),
        toDigitsCore_append b fuel (n / b) [Nat.digitChar (n % b)]]
      simp

/-- Reading back the digits of `n` in a base from 2 to 16 gives `n`, with enough fuel. -/
theorem readDigits_toDigitsCore (b : Nat) (hb2 : 2 ≤ b) (hb16 : b ≤ 16) :
    ∀ (fuel n : Nat), n < fuel → readDigits b (Nat.toDigitsCore b fuel n []) = n
  | 0, n, hn => absurd hn (Nat.not_lt_zero n)
  | fuel + 1, n, hn => by
    have hmod : n % b < 16 := Nat.lt_of_lt_of_le (Nat.mod_lt n (by omega)) hb16
    rw [Nat.toDigitsCore]
    split
    · rename_i hz
      have hlt : n < b := (Nat.div_eq_zero_iff (by omega)).mp hz
      simp only [readDigits, List.foldl_cons, List.foldl_nil]
      rw [digitValue_digitChar _ hmod, Nat.mod_eq_of_lt hlt]
      omega
    · rename_i hz
      have hpos : 0 < n / b := Nat.pos_of_ne_zero hz
      have hdiv : n / b < fuel := by
        have : n / b < n := Nat.div_lt_self (by
          rcases Nat.eq_zero_or_pos n with h0 | h0
          · simp [h0] at hpos
          · exact h0) hb2
        omega
      have ih := readDigits_toDigitsCore b hb2 hb16 fuel (n / b) hdiv
      rw [toDigitsCore_append]
      simp only [readDigits, List.foldl_append, List.foldl_cons, List.foldl_nil] at ih ⊢
      rw [ih, digitValue_digitChar _ hmod]
      exact Nat.div_add_mod' n b

/-- Two numbers with the same digits in a base from 2 to 16 are equal. -/
theorem toDigits_injective (b : Nat) (hb2 : 2 ≤ b) (hb16 : b ≤ 16) (n m : Nat)
    (h : Nat.toDigits b n = Nat.toDigits b m) : n = m := by
  have hn := readDigits_toDigitsCore b hb2 hb16 (n + 1) n (Nat.lt_succ_self n)
  have hm := readDigits_toDigitsCore b hb2 hb16 (m + 1) m (Nat.lt_succ_self m)
  rw [Nat.toDigits] at h
  rw [← hn, ← hm]
  exact congrArg (readDigits b) h

/-- Two texts that agree, each cut at its first separator, agree before and after it. -/
theorem split_at_first {α : Type} (sep : α) : ∀ (a b r r' : List α), sep ∉ a → sep ∉ b →
    a ++ sep :: r = b ++ sep :: r' → a = b ∧ r = r'
  | [], [], r, r', _, _, h => ⟨rfl, List.tail_eq_of_cons_eq h⟩
  | [], y :: b, r, r', _, hb, h => by
    have : sep = y := List.head_eq_of_cons_eq h
    exact absurd (this ▸ List.mem_cons_self _ _) hb
  | x :: a, [], r, r', ha, _, h => by
    have : x = sep := List.head_eq_of_cons_eq h
    exact absurd (this ▸ List.mem_cons_self _ _) ha
  | x :: a, y :: b, r, r', ha, hb, h => by
    have hxy : x = y := List.head_eq_of_cons_eq h
    have ht : a ++ sep :: r = b ++ sep :: r' := List.tail_eq_of_cons_eq h
    have ih := split_at_first sep a b r r' (fun hm => ha (List.mem_cons_of_mem _ hm))
      (fun hm => hb (List.mem_cons_of_mem _ hm)) ht
    exact ⟨by rw [hxy, ih.1], ih.2⟩

/-- A digit character is not a comma. -/
theorem digitChar_ne_comma (k : Nat) : Nat.digitChar k ≠ comma := by
  unfold Nat.digitChar
  iterate 15 refine ite_ne_of_ne (by decide) ?_
  exact ite_ne_of_ne (by decide) (by decide)

/-- Digit generation adds no comma. -/
theorem toDigitsCore_no_comma (b : Nat) : ∀ (fuel n : Nat) (ds : List Char),
    comma ∉ ds → comma ∉ Nat.toDigitsCore b fuel n ds
  | 0, _, ds, hds => by simpa [Nat.toDigitsCore] using hds
  | fuel + 1, n, ds, hds => by
    have hcons : comma ∉ Nat.digitChar (n % b) :: ds := by
      intro hmem
      rcases List.mem_cons.mp hmem with h | h
      · exact digitChar_ne_comma _ h.symm
      · exact hds h
    rw [Nat.toDigitsCore]
    split
    · exact hcons
    · exact toDigitsCore_no_comma b fuel (n / b) _ hcons

/-- The decimal rendering holds no comma. -/
theorem fmtDec_no_comma (n : Nat) : comma ∉ (fmtDec n).data :=
  toDigitsCore_no_comma 10 (n + 1) n [] (List.not_mem_nil _)

/-- The hexadecimal rendering holds no comma. -/
theorem fmtSharpV_no_comma (n : Nat) : comma ∉ (fmtSharpV n).data := by
  have hd := toDigitsCore_no_comma 16 (n + 1) n [] (List.not_mem_nil _)
  intro hmem
  simp only [fmtSharpV, String.data_append, List.mem_append] at hmem
  rcases hmem with h | h
  · exact absurd h (by decide)
  · exact hd h

/-- The decimal rendering determines the number. -/
theorem fmtDec_data_inj (n m : Nat) (h : (fmtDec n).data = (fmtDec m).data) : n = m :=
  toDigits_injective 10 (by decide) (by decide) n m h

/-- The hexadecimal rendering determines the number. -/
theorem fmtSharpV_data_inj (n m : Nat) (h : (fmtSharpV n).data = (fmtSharpV m).data) :
    n = m := by
  simp only [fmtSharpV, String.data_append] at h
  exact toDigits_injective 16 (by decide) (by decide) n m (List.append_cancel_left h)

/-- One step of reading the rendered header: two texts that start with a comma-free field,
a comma and the same label agree on the field and on what follows the label. -/
theorem field_step (a b lab r r' : List Char) (ha : comma ∉ a) (hb : comma ∉ b)
    (h : a ++ (comma :: lab ++ r) = b ++ (comma :: lab ++ r')) : a = b ∧ r = r' := by
  have hs := split_at_first comma a b (lab ++ r) (lab ++ r') ha hb h
  exact ⟨hs.1, List.append_cancel_left hs.2⟩

/-- For a fixed command name and mnemonic the formatted header determines the header. -/
theorem sprintfHeader_inj (name short : GoString) (h1 h2 : Header)
    (h : sprintfHeader name short h1 = sprintfHeader name short h2) : h1 = h2 := by
  have hd := congrArg String.data h
  simp only [sprintfHeader, String.data_append, List.append_assoc] at hd
  have hd0 := List.append_cancel_left (List.append_cancel_left
    (List.append_cancel_left (List.append_cancel_left hd)))
  obtain ⟨e1, hd1⟩ := field_step _ _ _ _ _ (fmtDec_no_comma _) (fmtDec_no_comma _) hd0
  obtain ⟨e2, hd2⟩ := field_step _ _ _ _ _ (fmtDec_no_comma _) (fmtDec_no_comma _) hd1
  obtain ⟨e3, hd3⟩ := field_step _ _ _ _ _ (fmtDec_no_comma _) (fmtDec_no_comma _) hd2
  obtain ⟨e4, hd4⟩ := field_step _ _ _ _ _ (fmtSharpV_no_comma _) (fmtSharpV_no_comma _) hd3
  obtain ⟨e5, hd5⟩ := field_step _ _ _ _ _ (fmtDec_no_comma _) (fmtDec_no_comma _) hd4
  obtain ⟨e6, hd6⟩ := field_step _ _ _ _ _ (fmtSharpV_no_comma _) (fmtSharpV_no_comma _) hd5
  have e7 := List.append_cancel_right hd6
  have c1 := fmtDec_data_inj _ _ e1
  have c2 := fmtDec_data_inj _ _ e2
  have c3 := fmtDec_data_inj _ _ e3
  have c4 := fmtSharpV_data_inj _ _ e4
  have c5 := fmtDec_data_inj _ _ e5
  have c6 := fmtSharpV_data_inj _ _ e6
  have c7 := fmtSharpV_data_inj _ _ e7
  cases h1
  cases h2
  simp only [Header.mk.injEq]
  exact ⟨c2, c3, c4, c1, c5, c6, c7⟩

/-- With a header, `findCmd` returns a name and a mnemonic. -/
theorem findCmd_done_of_header (d : Option dict.Parser) (h : Header) :
    ∃ name short : GoString, findCmd d (some h) = .done (name, short) := by
  obtain ⟨b1, b2, hf⟩ := findCmd_suffixed d h
  exact ⟨_, _, hf⟩

/-! ## Theorems: finalisation before printing, lossless rendering -/

/-- C13: `PrettyPrint` calls `Bytes()` first: its first write is the text of `String()` on
the message as `Bytes()` left it, formatted from the header `Bytes()` left, so the length
shown is the recomputed one; the text differs from the rendering, under the same names, of
any header with another length, in particular of the one held before the call. -/
theorem PrettyPrint_header_after_Bytes (Bytes : Message → Message)
    (render : AVP → GoString) (m : Message) (h' : Header)
    (hH : (Bytes m).Header = some h') :
    ∃ (name short : GoString) (rest : List (Stream × GoString)),
      findCmd (Bytes m).Dict (Bytes m).Header = .done (name, short) ∧
      (Bytes m).String = .done (sprintfHeader name short h') ∧
      m.PrettyPrint Bytes render
        = .done ((Stream.Stderr, sprintfHeader name short h' ++ "\n") :: rest) ∧
      (∀ h : Header, h.MessageLength ≠ h'.MessageLength →
        sprintfHeader name short h ≠ sprintfHeader name short h') := by
  obtain ⟨name, short, hf⟩ := findCmd_done_of_header (Bytes m).Dict h'
  rw [← hH] at hf
  have hs := String_of_findCmd (Bytes m) h' name short hH hf
  refine ⟨name, short,
    ((Bytes m).AVP.map fun avp => (Stream.Stdout, "  " ++ render avp ++ "\n"))
      ++ [(Stream.Stdout, "\n")], hf, hs, ?_, fun h hne heq => ?_⟩
  · simp only [Message.PrettyPrint, hs, List.cons_append]
  · exact hne (congrArg Header.MessageLength (sprintfHeader_inj _ _ h h' heq))

/-- Witness of C13: `cerMessage` holds the length 20; `sampleBytes` recomputes 80 for its
five AVPs, and 80 is what the header line shows. -/
theorem PrettyPrint_header_after_Bytes_witness :
    cerMessage.String = .done ("Capabilities-Exchange-Request (CER) Header\x7bCode=257,"
      ++ "Version=1,MessageLength=20,CommandFlags=0x80,ApplicationId=0,HopByHopId=0xabc,"
      ++ "EndToEndId=0x0\x7d") ∧
    ∃ rest : List (Stream × GoString),
      cerMessage.PrettyPrint sampleBytes sampleRender = .done ((Stream.Stderr,
        "Capabilities-Exchange-Request (CER) Header\x7bCode=257,"
        ++ "Version=1,MessageLength=80,CommandFlags=0x80,ApplicationId=0,HopByHopId=0xabc,"
        ++ "EndToEndId=0x0\x7d\n") :: rest) := by
  obtain ⟨name, short, rest, hf, _, hp, _⟩ :=
    PrettyPrint_header_after_Bytes sampleBytes sampleRender cerMessage
      { cerHeader with MessageLength := 80 } rfl
  have hns : (name, short) = ("Capabilities-Exchange-Request", "CER") :=
    Run.done.inj (hf.symm.trans (by decide))
  obtain ⟨rfl, rfl⟩ := Prod.mk.inj hns
  have htext : (sprintfHeader "Capabilities-Exchange-Request" "CER"
      { cerHeader with MessageLength := 80 } ++ "\n" : GoString)
      = "Capabilities-Exchange-Request (CER) Header\x7bCode=257,"
        ++ "Version=1,MessageLength=80,CommandFlags=0x80,ApplicationId=0,HopByHopId=0xabc,"
        ++ "EndToEndId=0x0\x7d\n" := by decide
  refine ⟨by decide, rest, ?_⟩
  rw [hp, htext]

/-- C14: for a fixed command name and mnemonic, two messages with the same `String()` text
have headers that agree on all seven rendered values; conversely equal headers give the same
text; and the text is a function of header and dictionary alone, the same for every message
that shares them. -/
theorem String_lossless (m1 m2 : Message) (h1 h2 : Header) (name short : GoString)
    (hH1 : m1.Header = some h1) (hH2 : m2.Header = some h2)
    (hf1 : findCmd m1.Dict m1.Header = .done (name, short))
    (hf2 : findCmd m2.Dict m2.Header = .done (name, short)) :
    (m1.String = m2.String →
      h1.CommandCode = h2.CommandCode ∧ h1.Version = h2.Version ∧
      h1.MessageLength = h2.MessageLength ∧ h1.CommandFlags = h2.CommandFlags ∧
      h1.ApplicationId = h2.ApplicationId ∧ h1.HopByHopId = h2.HopByHopId ∧
      h1.EndToEndId = h2.EndToEndId) ∧
    (h1 = h2 → m1.String = m2.String) ∧
    (∀ m : Message, m.Header = m1.Header → m.Dict = m1.Dict → m.String = m1.String) := by
  have hs1 := String_of_findCmd m1 h1 name short hH1 hf1
  have hs2 := String_of_findCmd m2 h2 name short hH2 hf2
  refine ⟨fun heq => ?_, fun heq => ?_, fun m hmH hmD => ?_⟩
  · rw [hs1, hs2] at heq
    have hh := sprintfHeader_inj name short h1 h2 (Run.done.inj heq)
    subst hh
    exact ⟨rfl, rfl, rfl, rfl, rfl, rfl, rfl⟩
  · rw [hs1, hs2, heq]
  · simp only [Message.String, hmH, hmD]

/-- Witness of C14: `cerEmpty` holds the length 20 and `sampleBytes cerMessage` the length
80, under the same command name and mnemonic. -/
theorem String_lossless_witness :
    (cerEmpty.String = (sampleBytes cerMessage).String →
      cerHeader.CommandCode = cerHeader.CommandCode ∧ cerHeader.Version = cerHeader.Version ∧
      cerHeader.MessageLength = 80 ∧
      cerHeader.CommandFlags = cerHeader.CommandFlags ∧
      cerHeader.ApplicationId = cerHeader.ApplicationId ∧
      cerHeader.HopByHopId = cerHeader.HopByHopId ∧
      cerHeader.EndToEndId = cerHeader.EndToEndId) ∧
    (cerHeader = { cerHeader with MessageLength := 80 } →
      cerEmpty.String = (sampleBytes cerMessage).String) ∧
    (∀ m : Message, m.Header = cerEmpty.Header → m.Dict = cerEmpty.Dict →
      m.String = cerEmpty.String) :=
  String_lossless cerEmpty (sampleBytes cerMessage) cerHeader
    { cerHeader with MessageLength := 80 } "Capabilities-Exchange-Request" "CER"
    rfl rfl (by decide) (by decide)

end Diam
